import Mathlib

/-!
Verification of the scan-orchestration core of a stock-alert bot.

The Python source is embedded shallowly:
- dictionaries become association lists (`lookupA` / `setA`, mirroring
  `dict.get` and `dict[k] = v`);
- wall-clock timestamps and prices become rationals;
- the network is an oracle: each fetch is a parameter giving the response
  the code would have observed;
- fallible steps are modelled with `Except` or explicit outcome flags.

Sources embedded: `main.py` (`process_stock`), `modules/notifier.py`
(`send_discord_message`), `utils/stock_list.py` (`get_stocks_under_1500`),
`modules/strategy_router.py` (`strategy_technical`),
`modules/finmind_client.py` (`get_data`, `_RateLimiter.wait`).
-/

set_option autoImplicit false

namespace StockBot

/-- Lookup in an association list, mirroring Python `dict.get`: the value of
the first matching key, if any. -/
def lookupA {α : Type} : List (String × α) → String → Option α
  | [], _ => none
  | (k, v) :: rest, key => if k = key then some v else lookupA rest key

/-- Update of an association list, mirroring Python `dict[k] = v`: replace the
value at the first matching key in place, else append at the end. -/
def setA {α : Type} : List (String × α) → String → α → List (String × α)
  | [], key, v => [(key, v)]
  | (k, w) :: rest, key, v =>
      if k = key then (k, v) :: rest else (k, w) :: setA rest key v

theorem lookupA_setA_self {α : Type} (l : List (String × α)) (k : String) (v : α) :
    lookupA (setA l k v) k = some v := by
  induction l with
  | nil => simp [setA, lookupA]
  | cons hd tl ih =>
      obtain ⟨k0, v0⟩ := hd
      by_cases h : k0 = k
      · simp [setA, h, lookupA]
      · simp [setA, h, lookupA, ih]

theorem lookupA_setA_ne {α : Type} (l : List (String × α)) (k k2 : String) (v : α)
    (h : k2 ≠ k) : lookupA (setA l k v) k2 = lookupA l k2 := by
  induction l with
  | nil => simp [setA, lookupA, Ne.symm h]
  | cons hd tl ih =>
      obtain ⟨k0, v0⟩ := hd
      by_cases hk : k0 = k
      · subst hk
        simp [setA, lookupA, Ne.symm h]
      · simp [setA, hk, lookupA, ih]

/-! ## Dedup ledger (`modules/notifier.py`, `send_discord_message`)

The in-memory table `_seen` maps a message hash to the timestamp of the last
send.  SHA-256 of the message text is modelled by the message text itself
(the hash is injective on the messages the program compares).  The returned
boolean says whether the call proceeded past the dedup gate towards delivery
(`False` = returned at the `within dedup window` early exit). -/

/-- Dedup gate of `send_discord_message` (notifier.py lines 32-38):
`last = _seen.get(h, 0.0); if now - last < DEDUP_WINDOW_SEC: return;
_seen[h] = now`. -/
def send_discord_message (seen : List (String × ℚ)) (W : ℚ) (message : String)
    (now : ℚ) : Bool × List (String × ℚ) :=
  let last := (lookupA seen message).getD 0
  if now - last < W then (false, seen)
  else (true, setA seen message now)

theorem send_fresh_entry (seen : List (String × ℚ)) (W now t : ℚ) (message : String)
    (hl : lookupA seen message = some t) (hfresh : now - t < W) :
    send_discord_message seen W message now = (false, seen) := by
  simp [send_discord_message, hl, hfresh]

theorem send_stale (seen : List (String × ℚ)) (W : ℚ) (message : String) (now : ℚ)
    (hstale : W ≤ now - (lookupA seen message).getD 0) :
    send_discord_message seen W message now = (true, setA seen message now) := by
  simp [send_discord_message, not_lt.mpr hstale]

/-- C2: if `send_discord_message(m)` is called while the dedup table holds a
timestamp for `m` less than `DEDUP_WINDOW_SEC` old, the call stops at the gate
and leaves the table unchanged; otherwise (stale entry, or no entry at all —
the absent entry reads as `0.0`, below any wall-clock `now ≥ W`) it records
`now` for that message and proceeds to deliver.  Of two identical sends within
the window the second is suppressed, and a resend once the window has elapsed
succeeds. -/
theorem C2_dedup_window (seen : List (String × ℚ)) (W : ℚ) (message : String)
    (now : ℚ) (hnow : W ≤ now) :
    (∀ t, lookupA seen message = some t → now - t < W →
      send_discord_message seen W message now = (false, seen)) ∧
    ((∀ t, lookupA seen message = some t → W ≤ now - t) →
      send_discord_message seen W message now = (true, setA seen message now)) ∧
    (∀ d, 0 ≤ d → d < W →
      send_discord_message (setA seen message now) W message (now + d)
        = (false, setA seen message now)) ∧
    (∀ t2, now + W ≤ t2 →
      (send_discord_message (setA seen message now) W message t2).1 = true) := by
  refine ⟨fun t hl hf => send_fresh_entry seen W now t message hl hf, ?_, ?_, ?_⟩
  · intro hst
    apply send_stale
    cases hl : lookupA seen message with
    | none => simpa using le_trans hnow (by linarith : now ≤ now - 0)
    | some t => simpa using hst t hl
  · intro d hd0 hdW
    apply send_fresh_entry _ _ _ now _ (lookupA_setA_self seen message now)
    linarith
  · intro t2 ht2
    have h := send_stale (setA seen message now) W message t2 ?_
    · simp [h]
    · rw [lookupA_setA_self seen message now]
      simpa using by linarith

/-- Witness for C2 at a concrete run: a first send at `t = 2000` with window
1800 passes and is recorded; an identical send at `t = 2500` is suppressed
without touching the table; a resend at `t = 3800` passes again. -/
theorem C2_dedup_window_witness :
    send_discord_message ([] : List (String × ℚ)) 1800 "sig" 2000
      = (true, [("sig", 2000)]) ∧
    send_discord_message [("sig", (2000 : ℚ))] 1800 "sig" 2500
      = (false, [("sig", (2000 : ℚ))]) ∧
    (send_discord_message [("sig", (2000 : ℚ))] 1800 "sig" 3800).1 = true := by
  obtain ⟨h1, h2, h3, h4⟩ :=
    C2_dedup_window ([] : List (String × ℚ)) 1800 "sig" 2000 (by norm_num)
  refine ⟨?_, ?_, ?_⟩
  · have := h2 (by intro t ht; simp [lookupA] at ht)
    simpa [setA] using this
  · have := h3 500 (by norm_num) (by norm_num)
    norm_num [setA] at this
    simpa using this
  · have := h4 3800 (by norm_num)
    norm_num [setA] at this
    simpa using this

/-! ## Per-candidate pipeline (`main.py`, `process_stock`)

The fetches, the strategy router and the two sinks are oracles: an `EvalEnv`
records what each external step would have yielded during this evaluation.
`sent_today` is the quota map, `seen` the dedup table threaded through
`safe_send → send_discord_message`. -/

/-- Outcome of the external collaborators during one `process_stock` run. -/
structure EvalEnv where
  /-- `get_price_with_ma` returned a frame (not `None`). -/
  hasDf : Bool
  /-- Number of rows of the returned price frame. -/
  dfLen : Nat
  /-- Some step of the guarded block raised before `safe_send` was reached. -/
  raisesEarly : Bool
  /-- At least one strategy result has `triggered` set. -/
  triggered : Bool
  /-- `DISCORD_WEBHOOK` is truthy, so `safe_send` calls `send_discord_message`. -/
  webhookSet : Bool
  /-- The HTTP post to the webhook succeeded with status 200/204. -/
  sinkOk : Bool
  /-- `log_signal` raised. -/
  logRaises : Bool
deriving DecidableEq, Repr

/-- History gate of `process_stock` (main.py line 47):
`if df is None or len(df) < 20: return`. -/
def histInsufficient (hasDf : Bool) (n : Nat) : Bool :=
  !hasDf || decide (n < 20)

/-- Result of one `process_stock` call: the quota map, the dedup table, whether
the message was actually delivered to the webhook, and whether a log record
was persisted. -/
structure PSResult where
  sent : List (String × Nat)
  seen : List (String × ℚ)
  delivered : Bool
  logged : Bool

/-- Count for one candidate, `sent_today.get(stock_id, 0)`. -/
def sentCount (st : List (String × Nat)) (id : String) : Nat :=
  (lookupA st id).getD 0

/-- Global count, `sum(sent_today.values())`. -/
def totalSent (st : List (String × Nat)) : Nat :=
  (st.map Prod.snd).sum

/-- One call of `process_stock` (main.py lines 37-80).  The quota guard reads
the maps first; the guarded `try` block then runs the fetches, the strategies,
`safe_send` (dedup gate, then best-effort webhook post with exceptions
swallowed) and finally `log_signal` plus the counter increment.  Any exception
inside the block is caught at line 79 and drops the remaining effects. -/
def process_stock (maxPer maxTot : Nat) (W : ℚ) (st : List (String × Nat))
    (seen : List (String × ℚ)) (id message : String) (now : ℚ) (env : EvalEnv) :
    PSResult :=
  let count := sentCount st id
  let total := totalSent st
  if maxPer ≤ count ∨ maxTot ≤ total then ⟨st, seen, false, false⟩
  else if histInsufficient env.hasDf env.dfLen then ⟨st, seen, false, false⟩
  else if env.raisesEarly then ⟨st, seen, false, false⟩
  else if !env.triggered then ⟨st, seen, false, false⟩
  else
    let gate := if env.webhookSet then send_discord_message seen W message now
                else (false, seen)
    let delivered := env.webhookSet && gate.1 && env.sinkOk
    if env.logRaises then ⟨st, gate.2, delivered, false⟩
    else ⟨setA st id (count + 1), gate.2, delivered, true⟩

/-- One evaluation as scheduled by the scan loop: candidate id, composed
message, wall-clock time, and the collaborators' outcomes. -/
structure Call where
  id : String
  message : String
  now : ℚ
  env : EvalEnv

/-- Sequential execution of a list of evaluations.  `process_stock` contains
no `await`, so evaluations inside an `asyncio.gather` wave run to completion
one after another; a trace is therefore a list. -/
def runCalls (maxPer maxTot : Nat) (W : ℚ) :
    List (String × Nat) × List (String × ℚ) → List Call →
    List (String × Nat) × List (String × ℚ)
  | s, [] => s
  | s, c :: rest =>
      let r := process_stock maxPer maxTot W s.1 s.2 c.id c.message c.now c.env
      runCalls maxPer maxTot W (r.sent, r.seen) rest

theorem totalSent_setA_succ (st : List (String × Nat)) (id : String) :
    totalSent (setA st id (sentCount st id + 1)) = totalSent st + 1 := by
  induction st with
  | nil => simp [setA, totalSent, sentCount, lookupA]
  | cons hd tl ih =>
      obtain ⟨k, v⟩ := hd
      by_cases hk : k = id
      · simp [setA, hk, totalSent, sentCount, lookupA]
        ring
      · have hne : ¬ k = id := hk
        simp [setA, hk, totalSent, sentCount, lookupA, hne] at ih ⊢
        omega

/-- Quota invariant: per-candidate counts at most `maxPer`, total at most
`maxTot`. -/
def QuotaInv (maxPer maxTot : Nat) (st : List (String × Nat)) : Prop :=
  (∀ id, sentCount st id ≤ maxPer) ∧ totalSent st ≤ maxTot

theorem process_stock_quota (maxPer maxTot : Nat) (W : ℚ)
    (st : List (String × Nat)) (seen : List (String × ℚ)) (id message : String)
    (now : ℚ) (env : EvalEnv) (h : QuotaInv maxPer maxTot st) :
    QuotaInv maxPer maxTot
      (process_stock maxPer maxTot W st seen id message now env).sent := by
  obtain ⟨hper, htot⟩ := h
  unfold process_stock
  by_cases hg : maxPer ≤ sentCount st id ∨ maxTot ≤ totalSent st
  · simpa [hg] using ⟨hper, htot⟩
  · push_neg at hg
    obtain ⟨hc, ht⟩ := hg
    have hcp : ¬ (maxPer ≤ sentCount st id ∨ maxTot ≤ totalSent st) := by
      push_neg
      exact ⟨hc, ht⟩
    simp only [hcp, if_false]
    split
    · exact ⟨hper, htot⟩
    split
    · exact ⟨hper, htot⟩
    split
    · exact ⟨hper, htot⟩
    split
    · exact ⟨hper, htot⟩
    constructor
    · intro id2
      by_cases hid : id2 = id
      · subst hid
        have hset : sentCount (setA st id2 (sentCount st id2 + 1)) id2
            = sentCount st id2 + 1 := by
          simp [sentCount, lookupA_setA_self]
        rw [hset]
        omega
      · simp [sentCount, lookupA_setA_ne st id id2 _ hid]
        exact hper id2
    · simp [totalSent_setA_succ]
      omega

theorem runCalls_quota (maxPer maxTot : Nat) (W : ℚ)
    (s : List (String × Nat) × List (String × ℚ)) (calls : List Call)
    (h : QuotaInv maxPer maxTot s.1) :
    QuotaInv maxPer maxTot (runCalls maxPer maxTot W s calls).1 := by
  induction calls generalizing s with
  | nil => simpa [runCalls] using h
  | cons c rest ih =>
      exact ih _ (process_stock_quota maxPer maxTot W s.1 s.2 c.id c.message
        c.now c.env h)

/-- C1: starting from the empty quota map, after any sequence of completed
`process_stock` calls every candidate count is at most `MAX_SIGNAL_PER_STOCK`
and the total at most `MAX_SIGNAL_TOTAL`; and any single call made when the
candidate count or the total has already reached its cap returns at once with
no delivery, no log record, and no change to the quota map or dedup table. -/
theorem C1_quota_invariant (maxPer maxTot : Nat) (W : ℚ) (calls : List Call) :
    ((∀ id, sentCount (runCalls maxPer maxTot W ([], []) calls).1 id ≤ maxPer) ∧
      totalSent (runCalls maxPer maxTot W ([], []) calls).1 ≤ maxTot) ∧
    (∀ st seen id message now env,
      maxPer ≤ sentCount st id ∨ maxTot ≤ totalSent st →
      process_stock maxPer maxTot W st seen id message now env
        = ⟨st, seen, false, false⟩) := by
  constructor
  · exact runCalls_quota maxPer maxTot W ([], []) calls
      ⟨fun id => by simp [sentCount, lookupA], by simp [totalSent]⟩
  · intro st seen id message now env hg
    unfold process_stock
    simp [hg]

/-- Environment in which every external step succeeds and a strategy fires. -/
def envOk : EvalEnv :=
  ⟨true, 30, false, true, true, true, false⟩

/-- Witness for C1: two triggering evaluations of the same candidate under
`MAX_SIGNAL_PER_STOCK = 1` leave its count at 1, and a call at a full quota
returns the state untouched. -/
theorem C1_quota_invariant_witness :
    sentCount (runCalls 1 3 1800
        ([], []) [⟨"2330", "m", 5000, envOk⟩, ⟨"2330", "m", 5000, envOk⟩]).1
      "2330" ≤ 1 ∧
    process_stock 1 3 1800 [("2330", 1)] [] "2330" "m" 5000 envOk
      = ⟨[("2330", 1)], [], false, false⟩ := by
  obtain ⟨⟨hper, _⟩, hearly⟩ :=
    C1_quota_invariant 1 3 1800 [⟨"2330", "m", 5000, envOk⟩, ⟨"2330", "m", 5000, envOk⟩]
  exact ⟨hper "2330",
    hearly [("2330", 1)] [] "2330" "m" 5000 envOk (Or.inl (by decide))⟩

/-- The guarded block of `process_stock` reached `safe_send`: the price frame
was present with at least 20 rows, nothing raised on the way, and at least
one strategy triggered. -/
def attemptReached (env : EvalEnv) : Bool :=
  !histInsufficient env.hasDf env.dfLen && !env.raisesEarly && env.triggered

/-- Counterexample to C7: a fully successful evaluation at `t = 100` whose
message is already in the dedup table (stamped `t = 0`, window 1200).  The
webhook post is suppressed by the dedup gate (`delivered = false`), yet
`sent_today` is incremented to 1 and the log record is persisted: the counter
does not track successful delivery. -/
theorem C7_counterexample :
    (process_stock 5 10 1200 [] [("m", (0 : ℚ))] "2330" "m" 100 envOk).delivered
        = false ∧
    sentCount (process_stock 5 10 1200 [] [("m", (0 : ℚ))] "2330" "m" 100
        envOk).sent "2330" = 1 ∧
    (process_stock 5 10 1200 [] [("m", (0 : ℚ))] "2330" "m" 100 envOk).logged
        = true := by
  refine ⟨?_, ?_, ?_⟩ <;>
    norm_num [process_stock, sentCount, totalSent, lookupA, setA, envOk,
      histInsufficient, send_discord_message]

/-- C7 as amended: `sent_today[id]` is incremented (and the log record
persisted) exactly when the evaluation reached the notification attempt and
`log_signal` did not raise — independent of whether the webhook delivery was
suppressed by the dedup window, skipped for a missing webhook, or failed at
the sink; in every other case, and for every other candidate, the counter is
unchanged.  Only `process_stock` touches the map. -/
theorem C7_increment_on_attempt (maxPer maxTot : Nat) (W : ℚ)
    (st : List (String × Nat)) (seen : List (String × ℚ)) (id message : String)
    (now : ℚ) (env : EvalEnv)
    (hguard : sentCount st id < maxPer ∧ totalSent st < maxTot) :
    (attemptReached env = true ∧ env.logRaises = false →
      sentCount (process_stock maxPer maxTot W st seen id message now env).sent
          id = sentCount st id + 1 ∧
      (process_stock maxPer maxTot W st seen id message now env).logged
          = true) ∧
    (attemptReached env = false ∨ env.logRaises = true →
      (process_stock maxPer maxTot W st seen id message now env).sent = st) ∧
    (∀ id2, id2 ≠ id →
      sentCount (process_stock maxPer maxTot W st seen id message now env).sent
          id2 = sentCount st id2) := by
  have hg : ¬ (maxPer ≤ sentCount st id ∨ maxTot ≤ totalSent st) := by
    push_neg
    exact ⟨hguard.1, hguard.2⟩
  refine ⟨?_, ?_, ?_⟩
  · rintro ⟨hatt, hlog⟩
    simp only [attemptReached, Bool.and_eq_true, Bool.not_eq_true'] at hatt
    obtain ⟨⟨hhist, hraise⟩, htrig⟩ := hatt
    unfold process_stock
    rw [if_neg hg]
    simp [hhist, hraise, htrig, hlog, sentCount, lookupA_setA_self]
  · intro hmiss
    rcases hmiss with hatt | hlog
    · unfold process_stock
      rw [if_neg hg]
      by_cases h1 : histInsufficient env.hasDf env.dfLen
      · simp [h1]
      · by_cases h2 : env.raisesEarly
        · simp [h1, h2]
        · have h3 : env.triggered = false := by
            simpa [attemptReached, h1, h2] using hatt
          simp [h1, h2, h3]
    · unfold process_stock
      rw [if_neg hg]
      by_cases h1 : histInsufficient env.hasDf env.dfLen
      · simp [h1]
      · by_cases h2 : env.raisesEarly
        · simp [h1, h2]
        · by_cases h3 : env.triggered
          · simp [h1, h2, h3, hlog]
          · simp [h1, h2, h3]
  · intro id2 hne
    unfold process_stock
    rw [if_neg hg]
    by_cases h1 : histInsufficient env.hasDf env.dfLen
    · simp [h1]
    · by_cases h2 : env.raisesEarly
      · simp [h1, h2]
      · by_cases h3 : env.triggered
        · by_cases h4 : env.logRaises
          · simp [h1, h2, h3, h4]
          · simp [h1, h2, h3, h4, sentCount, lookupA_setA_ne st id id2 _ hne]
        · simp [h1, h2, h3]

/-- Witness for C7 as amended: under a dedup-suppressed delivery the counter
still advances to 1, a non-triggering evaluation leaves the map unchanged,
and an unrelated candidate's count stays 0. -/
theorem C7_increment_on_attempt_witness :
    (sentCount (process_stock 5 10 1200 [] [("m", (0 : ℚ))] "2330" "m" 100
        envOk).sent "2330" = 1 ∧
      (process_stock 5 10 1200 [] [("m", (0 : ℚ))] "2330" "m" 100
        envOk).logged = true) ∧
    (process_stock 5 10 1200 [] [] "2330" "m" 100
        ⟨true, 30, false, false, true, true, false⟩).sent = [] ∧
    sentCount (process_stock 5 10 1200 [] [("m", (0 : ℚ))] "2330" "m" 100
        envOk).sent "2317" = sentCount [] "2317" := by
  obtain ⟨hinc, _, hframe⟩ :=
    C7_increment_on_attempt 5 10 1200 [] [("m", (0 : ℚ))] "2330" "m" 100 envOk
      ⟨by decide, by decide⟩
  obtain ⟨_, hnone, _⟩ :=
    C7_increment_on_attempt 5 10 1200 [] [] "2330" "m" 100
      ⟨true, 30, false, false, true, true, false⟩ ⟨by decide, by decide⟩
  exact ⟨by simpa [sentCount, lookupA] using hinc ⟨by decide, by decide⟩,
    hnone (Or.inl (by decide)), hframe "2317" (by decide)⟩

/-! ## Liquidity prefetch filter (`utils/stock_list.py`, `get_stocks_under_1500`)

The Yahoo quote sources are oracles `String → Option ℚ` (the price the lookup
would yield for a stock id, `none` = missing).  `batchRaises` says whether the
batched tier's code raised.  Candidates are `(stock_id, stock_name)` pairs. -/

/-- Python `str.isdigit` restricted to ASCII inputs: nonempty and all digits. -/
def pyIsDigit (s : String) : Bool :=
  !s.isEmpty && s.toList.all Char.isDigit

/-- Merged batch map `{**batch_tw, **batch_two}`: the `.TWO` lookup is issued
only for ids missing from the `.TW` result, so the primary answer wins. -/
def quoteMerge (qTW qTWO : String → Option ℚ) (sid : String) : Option ℚ :=
  match qTW sid with
  | some p => some p
  | none => qTWO sid

/-- Acceptance test of both tiers: a known price strictly below the ceiling. -/
def keepB (pm : String → Option ℚ) (maxPrice : ℚ) (c : String × String) : Bool :=
  match pm c.1 with
  | some p => decide (p < maxPrice)
  | none => false

theorem keepB_iff (pm : String → Option ℚ) (maxPrice : ℚ) (c : String × String) :
    keepB pm maxPrice c = true ↔ ∃ p, pm c.1 = some p ∧ p < maxPrice := by
  unfold keepB
  cases h : pm c.1 <;> simp

/-- Walk of the batched tier (stock_list.py lines 186-192): accept candidates
in original order while the quota `target` is not reached; the break check
`len(filtered) >= target` runs after every iteration. -/
def batchedLoop (pm : String → Option ℚ) (maxPrice : ℚ) (target : Nat) :
    List (String × String) → List (String × String) → List (String × String)
  | acc, [] => acc
  | acc, c :: rest =>
      let acc2 := if keepB pm maxPrice c then acc ++ [c] else acc
      if target ≤ acc2.length then acc2
      else batchedLoop pm maxPrice target acc2 rest

/-- Per-candidate price of the serial tier: `.TW` first, `.TWO` on a miss
(stock_list.py lines 207-209). -/
def serialPrice (sTW sTWO : String → Option ℚ) (sid : String) : Option ℚ :=
  match sTW sid with
  | some p => some p
  | none => sTWO sid

/-- Walk of the serial tier (stock_list.py lines 203-219): one probe per
candidate, stop at `target` matches or `maxChecks` probes. -/
def serialLoop (sp : String → Option ℚ) (maxPrice : ℚ) (target maxChecks : Nat) :
    List (String × String) → List (String × String) → Nat → List (String × String)
  | acc, [], _ => acc
  | acc, c :: rest, checks =>
      let acc2 := if keepB sp maxPrice c then acc ++ [c] else acc
      let checks2 := checks + 1
      if target ≤ acc2.length ∨ maxChecks ≤ checks2 then acc2
      else serialLoop sp maxPrice target maxChecks acc2 rest checks2

/-- The whole of `get_stocks_under_1500` (stock_list.py lines 148-227):
empty input returns `[]`; candidates are restricted to digit ids; `target` is
`limit` when truthy, else the candidate count; the batched tier returns only
when it collected something, otherwise — and on a batched-tier exception —
the serial tier runs, and if it too collected nothing the first `target`
digit candidates are returned unfiltered. -/
def get_stocks_under_1500 (stocks : List (String × String)) (maxPrice : ℚ)
    (limit : Option Nat) (maxChecks : Nat) (batchRaises : Bool)
    (qTW qTWO sTW sTWO : String → Option ℚ) : List (String × String) :=
  if stocks = [] then []
  else
    let cand := stocks.filter (fun c => pyIsDigit c.1)
    let target := match limit with
      | some l => if l = 0 then cand.length else l
      | none => cand.length
    let serialPart :=
      let f := serialLoop (serialPrice sTW sTWO) maxPrice target maxChecks [] cand 0
      if f.isEmpty then cand.take target else f.take target
    if batchRaises then serialPart
    else
      let filtered := batchedLoop (quoteMerge qTW qTWO) maxPrice target [] cand
      if filtered.isEmpty then serialPart else filtered.take target

theorem batchedLoop_spec (pm : String → Option ℚ) (maxPrice : ℚ) (target : Nat)
    (cand acc : List (String × String)) :
    ∃ s, batchedLoop pm maxPrice target acc cand = acc ++ s ∧
      s.Sublist cand ∧ ∀ c ∈ s, keepB pm maxPrice c = true := by
  induction cand generalizing acc with
  | nil => exact ⟨[], by simp [batchedLoop]⟩
  | cons c rest ih =>
      by_cases hk : keepB pm maxPrice c = true
      · by_cases hstop : target ≤ acc.length + 1
        · refine ⟨[c], ?_, List.singleton_sublist.mpr (List.mem_cons_self c rest), ?_⟩
          · simp [batchedLoop, hk, hstop]
          · simpa using hk
        · obtain ⟨s, hs, hsub, hkeep⟩ := ih (acc ++ [c])
          refine ⟨c :: s, ?_, hsub.cons₂ c, ?_⟩
          · simp [batchedLoop, hk, hstop, hs]
          · intro x hx
            rcases List.mem_cons.mp hx with rfl | hx2
            · exact hk
            · exact hkeep x hx2
      · by_cases hstop : target ≤ acc.length
        · exact ⟨[], by simp [batchedLoop, hk, hstop], List.nil_sublist _, by simp⟩
        · obtain ⟨s, hs, hsub, hkeep⟩ := ih acc
          exact ⟨s, by simp [batchedLoop, hk, hstop, hs], hsub.cons c, hkeep⟩

theorem batchedLoop_length (pm : String → Option ℚ) (maxPrice : ℚ) (target : Nat)
    (cand acc : List (String × String)) (h : acc.length < target) :
    (batchedLoop pm maxPrice target acc cand).length ≤ target := by
  induction cand generalizing acc with
  | nil => simpa [batchedLoop] using le_of_lt h
  | cons c rest ih =>
      by_cases hk : keepB pm maxPrice c = true
      · by_cases hstop : target ≤ acc.length + 1
        · simp only [batchedLoop, hk, if_true]
          simp only [List.length_append, List.length_singleton, hstop, if_true]
          omega
        · simp [batchedLoop, hk, hstop]
          exact ih _ (by simpa using lt_of_not_le hstop)
      · by_cases hstop : target ≤ acc.length
        · exact absurd hstop (not_le.mpr h)
        · simp [batchedLoop, hk, hstop]
          exact ih _ (lt_of_not_le hstop)

/-- C4: for every candidate list, positive limit and mocked quote maps, the
batched tier's output is a subsequence of the input in input order, of length
at most `limit`, and every accepted candidate has a known merged price
strictly below `max_price`. -/
theorem C4_batched_tier_shape (stocks : List (String × String))
    (qTW qTWO : String → Option ℚ) (maxPrice : ℚ) (limit : Nat)
    (hpos : 0 < limit) :
    (batchedLoop (quoteMerge qTW qTWO) maxPrice limit []
        (stocks.filter (fun c => pyIsDigit c.1))).Sublist stocks ∧
    (batchedLoop (quoteMerge qTW qTWO) maxPrice limit []
        (stocks.filter (fun c => pyIsDigit c.1))).length ≤ limit ∧
    ∀ c ∈ batchedLoop (quoteMerge qTW qTWO) maxPrice limit []
        (stocks.filter (fun c => pyIsDigit c.1)),
      ∃ p, quoteMerge qTW qTWO c.1 = some p ∧ p < maxPrice := by
  obtain ⟨s, hs, hsub, hkeep⟩ := batchedLoop_spec (quoteMerge qTW qTWO) maxPrice
    limit (stocks.filter (fun c => pyIsDigit c.1)) []
  simp only [List.nil_append] at hs
  refine ⟨?_, ?_, ?_⟩
  · rw [hs]
    exact hsub.trans (List.filter_sublist stocks)
  · exact batchedLoop_length _ _ _ _ _ (by simpa using hpos)
  · intro c hc
    exact (keepB_iff _ _ c).mp (hkeep c (hs ▸ hc))

/-- Witness for C4 at a concrete input: two candidates, one non-digit id, a
mocked quote source knowing only "2330". -/
theorem C4_batched_tier_shape_witness :
    ((batchedLoop (quoteMerge (fun s => if s = "2330" then some 100 else none)
          (fun _ => none)) 1500 2 []
        ([("ABC", "X"), ("2330", "Y")].filter (fun c => pyIsDigit c.1))).Sublist
        [("ABC", "X"), ("2330", "Y")] ∧
      (batchedLoop (quoteMerge (fun s => if s = "2330" then some 100 else none)
          (fun _ => none)) 1500 2 []
        ([("ABC", "X"), ("2330", "Y")].filter (fun c => pyIsDigit c.1))).length
        ≤ 2 ∧
      ∀ c ∈ batchedLoop (quoteMerge (fun s => if s = "2330" then some 100 else none)
          (fun _ => none)) 1500 2 []
          ([("ABC", "X"), ("2330", "Y")].filter (fun c => pyIsDigit c.1)),
        ∃ p, quoteMerge (fun s => if s = "2330" then some 100 else none)
            (fun _ => none) c.1 = some p ∧ p < 1500) :=
  C4_batched_tier_shape [("ABC", "X"), ("2330", "Y")]
    (fun s => if s = "2330" then some 100 else none) (fun _ => none) 1500 2
    (by decide)

/-- C3, behaviour at the failing input: the batched lookups complete without
raising and collect zero candidates (the only quote, 2000, is at or above the
ceiling 1500), yet `get_stocks_under_1500` engages the serial per-candidate
tier (whose lookup answers 900) and returns its match instead of the batched
tier's empty collection.  The inline comment at stock_list.py line 197 says
this case returns empty, but the code has no `return` there and falls
through. -/
theorem C3_batched_zero_falls_through :
    batchedLoop
        (quoteMerge (fun s => if s = "2330" then some 2000 else none)
          (fun _ => none)) 1500 10 []
        ([("2330", "A")].filter (fun c => pyIsDigit c.1)) = [] ∧
    get_stocks_under_1500 [("2330", "A")] 1500 (some 10) 300 false
        (fun s => if s = "2330" then some 2000 else none) (fun _ => none)
        (fun s => if s = "2330" then some 900 else none) (fun _ => none)
      = [("2330", "A")] := by
  have hd : pyIsDigit "2330" = true := by decide
  constructor
  · norm_num [batchedLoop, keepB, quoteMerge, List.filter, hd]
  · norm_num [get_stocks_under_1500, batchedLoop, serialLoop, keepB,
      quoteMerge, serialPrice, List.filter, hd]

/-- Counterexample to C8: with a non-digit first candidate and every price
source empty, both tiers find zero matches, but the function returns the
first `limit` candidates of the digit-filtered list, not of the original
input. -/
theorem C8_counterexample :
    get_stocks_under_1500 [("ABC", "X"), ("2330", "Y")] 1500 (some 1) 300 false
        (fun _ => none) (fun _ => none) (fun _ => none) (fun _ => none)
      = [("2330", "Y")] ∧
    get_stocks_under_1500 [("ABC", "X"), ("2330", "Y")] 1500 (some 1) 300 false
        (fun _ => none) (fun _ => none) (fun _ => none) (fun _ => none)
      ≠ List.take 1 [("ABC", "X"), ("2330", "Y")] := by
  have h : get_stocks_under_1500 [("ABC", "X"), ("2330", "Y")] 1500 (some 1)
      300 false (fun _ => none) (fun _ => none) (fun _ => none) (fun _ => none)
      = [("2330", "Y")] := by
    have hd1 : pyIsDigit "ABC" = false := by decide
    have hd2 : pyIsDigit "2330" = true := by decide
    norm_num [get_stocks_under_1500, batchedLoop, serialLoop, keepB,
      quoteMerge, serialPrice, List.filter, hd1, hd2]
    decide
  exact ⟨h, by rw [h]; decide⟩

/-- C8 as amended: if the batched tier collected nothing (when it did not
raise) and the serial tier collected nothing, the function returns the first
`limit` candidates of the input restricted to all-digit ids — which equals
the first `limit` original candidates whenever every input id is a digit
string. -/
theorem C8_passthrough_amended (stocks : List (String × String)) (maxPrice : ℚ)
    (limit maxChecks : Nat) (batchRaises : Bool)
    (qTW qTWO sTW sTWO : String → Option ℚ)
    (hlim : 0 < limit) (hne : stocks ≠ [])
    (hbatch : batchedLoop (quoteMerge qTW qTWO) maxPrice limit []
        (stocks.filter (fun c => pyIsDigit c.1)) = [])
    (hserial : serialLoop (serialPrice sTW sTWO) maxPrice limit maxChecks []
        (stocks.filter (fun c => pyIsDigit c.1)) 0 = []) :
    get_stocks_under_1500 stocks maxPrice (some limit) maxChecks batchRaises
        qTW qTWO sTW sTWO
      = (stocks.filter (fun c => pyIsDigit c.1)).take limit ∧
    ((∀ c ∈ stocks, pyIsDigit c.1 = true) →
      get_stocks_under_1500 stocks maxPrice (some limit) maxChecks batchRaises
          qTW qTWO sTW sTWO
        = stocks.take limit) := by
  have h0 : ¬ limit = 0 := by omega
  have hres : get_stocks_under_1500 stocks maxPrice (some limit) maxChecks
      batchRaises qTW qTWO sTW sTWO
      = (stocks.filter (fun c => pyIsDigit c.1)).take limit := by
    unfold get_stocks_under_1500
    rw [if_neg hne]
    cases batchRaises <;> simp [h0, hbatch, hserial]
  exact ⟨hres, fun hall => by rw [hres, List.filter_eq_self.mpr hall]⟩

/-- Witness for C8 as amended: a single all-digit candidate with every price
source empty comes back unfiltered. -/
theorem C8_passthrough_amended_witness :
    get_stocks_under_1500 [("2330", "Y")] 1500 (some 1) 300 false
        (fun _ => none) (fun _ => none) (fun _ => none) (fun _ => none)
      = List.take 1 [("2330", "Y")] := by
  obtain ⟨_, h2⟩ := C8_passthrough_amended [("2330", "Y")] 1500 1 300 false
    (fun _ => none) (fun _ => none) (fun _ => none) (fun _ => none)
    (by decide) (by decide)
    (by norm_num [batchedLoop, keepB, quoteMerge, List.filter,
      show pyIsDigit "2330" = true by decide])
    (by norm_num [serialLoop, keepB, serialPrice, List.filter,
      show pyIsDigit "2330" = true by decide])
  exact h2 (by decide)

/-! ## Technical strategy (`modules/strategy_router.py`, `strategy_technical`)

A price frame is a chronological list of `(close, volume)` pairs.  The MA5,
MA20 and Volume_avg columns are the rolling means `fetch_price.py` lines
91-96 compute (`rolling(window=w, min_periods=1).mean()`).  The `advice`
field is dropped: it never affects `triggered` or `reason`. -/

/-- Arithmetic mean; pandas yields NaN on an empty window, which cannot occur
at the indices used here. -/
def mean (xs : List ℚ) : ℚ := xs.sum / xs.length

/-- Trailing window of width `w` ending at index `i` (inclusive), as used by
`rolling(window=w, min_periods=1)`: the last `min (w, i+1)` entries. -/
def winAt (w : Nat) (xs : List ℚ) (i : Nat) : List ℚ :=
  (xs.take (i + 1)).drop (i + 1 - w)

/-- The rolling-mean column, entry `i` = mean of the trailing `w`-window. -/
def rollingMean (w : Nat) (xs : List ℚ) : List ℚ :=
  (List.range xs.length).map (fun i => mean (winAt w xs i))

/-- Maximum of a list, `pandas.Series.max` on a nonempty slice. -/
def maxList : List ℚ → ℚ
  | [] => 0
  | x :: xs => xs.foldl max x

/-- One strategy verdict (`advice` omitted, see above). -/
structure StratResult where
  strategy : String
  triggered : Bool
  reason : String
deriving DecidableEq, Repr

/-- Python `str` of a `bool` as it appears inside the f-string. -/
def pyBool (b : Bool) : String := if b then "True" else "False"

/-- The reason f-string of `strategy_technical` (strategy_router.py lines
68-72), determined by the three sub-condition booleans. -/
def mkReason (g v b : Bool) : String :=
  let cnt := (if g then 1 else 0) + (if v then 1 else 0) + (if b then 1 else 0)
  let core := "金叉=" ++ pyBool g ++ "、量能=" ++ pyBool v ++ "、突破高點="
    ++ pyBool b
  if g && v && b then "觸發（滿足 " ++ toString cnt ++ "/3）：" ++ core
  else "未觸發（僅 " ++ toString cnt ++ "/3）：" ++ core

/-- `strategy_technical` (strategy_router.py lines 39-78): golden cross of
MA5 over MA20 between the last two rows, volume above 1.8× its rolling
average, and close above the maximum of the 20 preceding closes
(`iloc[-21:-1]`); triggers only when all three hold. -/
def strategy_technical (df : List (ℚ × ℚ)) : StratResult :=
  if df.length < 21 then ⟨"技術面", false, "資料不足"⟩
  else
    let n := df.length
    let closes := df.map Prod.fst
    let vols := df.map Prod.snd
    let ma5 := rollingMean 5 closes
    let ma20 := rollingMean 20 closes
    let volAvg := rollingMean 20 vols
    let golden := decide (ma5.getD (n - 2) 0 < ma20.getD (n - 2) 0) &&
      decide (ma20.getD (n - 1) 0 < ma5.getD (n - 1) 0)
    let volOk := decide (volAvg.getD (n - 1) 0 * (9 / 5) < vols.getD (n - 1) 0)
    let past20 := maxList ((closes.take (n - 1)).drop (n - 21))
    let breakout := decide (past20 < closes.getD (n - 1) 0)
    ⟨"技術面", golden && volOk && breakout, mkReason golden volOk breakout⟩

/-- Spec-side fast average: mean of the trailing 5 closes at index `i`. -/
def fastAvgSpec (df : List (ℚ × ℚ)) (i : Nat) : ℚ :=
  mean (winAt 5 (df.map Prod.fst) i)

/-- Spec-side slow average: mean of the trailing 20 closes at index `i`. -/
def slowAvgSpec (df : List (ℚ × ℚ)) (i : Nat) : ℚ :=
  mean (winAt 20 (df.map Prod.fst) i)

/-- Spec-side trailing volume average at index `i`. -/
def volAvgSpec (df : List (ℚ × ℚ)) (i : Nat) : ℚ :=
  mean (winAt 20 (df.map Prod.snd) i)

/-- Close at index `i` (0 outside the frame). -/
def closeAt (df : List (ℚ × ℚ)) (i : Nat) : ℚ := (df.map Prod.fst).getD i 0

/-- Volume at index `i` (0 outside the frame). -/
def volAt (df : List (ℚ × ℚ)) (i : Nat) : ℚ := (df.map Prod.snd).getD i 0

theorem rollingMean_getD (w : Nat) (xs : List ℚ) (i : Nat) (h : i < xs.length) :
    (rollingMean w xs).getD i 0 = mean (winAt w xs i) := by
  unfold rollingMean
  rw [List.getD_eq_getElem?_getD, List.getElem?_map, List.getElem?_range h]
  rfl

theorem foldl_max_lt_iff (c : ℚ) (xs : List ℚ) :
    ∀ a, xs.foldl max a < c ↔ a < c ∧ ∀ x ∈ xs, x < c := by
  induction xs with
  | nil => simp
  | cons x xs ih =>
      intro a
      simp only [List.foldl_cons, ih (max a x), max_lt_iff, List.mem_cons]
      constructor
      · rintro ⟨⟨ha, hx⟩, hxs⟩
        exact ⟨ha, fun y hy => by rcases hy with rfl | hy
                                  exacts [hx, hxs y hy]⟩
      · rintro ⟨ha, hall⟩
        exact ⟨⟨ha, hall x (Or.inl rfl)⟩, fun y hy => hall y (Or.inr hy)⟩

theorem maxList_lt_iff (l : List ℚ) (c : ℚ) (h : l ≠ []) :
    maxList l < c ↔ ∀ x ∈ l, x < c := by
  cases l with
  | nil => exact absurd rfl h
  | cons x xs =>
      simp only [maxList, foldl_max_lt_iff, List.mem_cons]
      constructor
      · rintro ⟨hx, hxs⟩ y hy
        rcases hy with rfl | hy
        exacts [hx, hxs y hy]
      · intro hall
        exact ⟨hall x (Or.inl rfl), fun y hy => hall y (Or.inr hy)⟩

theorem slice_forall_lt_iff (l : List ℚ) (a b : Nat) (c : ℚ) (hb : b ≤ l.length)
    (hab : a ≤ b) :
    (∀ x ∈ (l.take b).drop a, x < c) ↔ ∀ i, i < b → a ≤ i → l.getD i 0 < c := by
  constructor
  · intro hx i hib hai
    have hil : i < l.length := lt_of_lt_of_le hib hb
    have hj : i - a < ((l.take b).drop a).length := by
      simp only [List.length_drop, List.length_take]
      omega
    have heq : ((l.take b).drop a).get ⟨i - a, hj⟩ = l.get ⟨i, hil⟩ := by
      simp only [List.get_eq_getElem]
      rw [List.getElem_drop]
      have hib2 : a + (i - a) < b := by omega
      rw [List.getElem_take]
      congr 1
      omega
    have hmem : ((l.take b).drop a).get ⟨i - a, hj⟩ ∈ (l.take b).drop a :=
      List.mem_iff_get.mpr ⟨⟨i - a, hj⟩, rfl⟩
    have hmm := hx _ hmem
    rw [heq] at hmm
    rw [List.getD_eq_getElem l 0 hil]
    simpa [List.get_eq_getElem] using hmm
  · intro hi x hx
    obtain ⟨⟨j, hj⟩, rfl⟩ := List.mem_iff_get.mp hx
    have hjb : a + j < b := by
      have hl := hj
      simp only [List.length_drop, List.length_take] at hl
      omega
    have hjl : a + j < l.length := lt_of_lt_of_le hjb hb
    have heq : ((l.take b).drop a).get ⟨j, hj⟩ = l.get ⟨a + j, hjl⟩ := by
      simp only [List.get_eq_getElem]
      rw [List.getElem_drop, List.getElem_take]
    rw [heq]
    have hfin := hi (a + j) hjb (Nat.le_add_right a j)
    rw [List.getD_eq_getElem l 0 hjl] at hfin
    simpa [List.get_eq_getElem] using hfin

/-- C5: for a frame of at least 21 rows, `strategy_technical` triggers iff
the fast average was below the slow average at the prior row and above it at
the last row, the last volume exceeds 1.8× its trailing 20-row average, and
the last close exceeds every one of the 20 preceding closes; the reason
string is the rendering of the three sub-condition truth values, and that
rendering determines all three values even when not all held. -/
theorem C5_technical_iff (df : List (ℚ × ℚ)) (h : 21 ≤ df.length) :
    ((strategy_technical df).triggered = true ↔
      ((fastAvgSpec df (df.length - 2) < slowAvgSpec df (df.length - 2) ∧
          slowAvgSpec df (df.length - 1) < fastAvgSpec df (df.length - 1)) ∧
        volAvgSpec df (df.length - 1) * (9 / 5) < volAt df (df.length - 1) ∧
        ∀ i < df.length - 1, df.length - 21 ≤ i →
          closeAt df i < closeAt df (df.length - 1))) ∧
    (strategy_technical df).reason =
      mkReason
        (decide (fastAvgSpec df (df.length - 2) < slowAvgSpec df (df.length - 2) ∧
          slowAvgSpec df (df.length - 1) < fastAvgSpec df (df.length - 1)))
        (decide (volAvgSpec df (df.length - 1) * (9 / 5) < volAt df (df.length - 1)))
        (decide (∀ i < df.length - 1, df.length - 21 ≤ i →
          closeAt df i < closeAt df (df.length - 1))) ∧
    (∀ g1 v1 b1 g2 v2 b2 : Bool,
      mkReason g1 v1 b1 = mkReason g2 v2 b2 → g1 = g2 ∧ v1 = v2 ∧ b1 = b2) := by
  have hn : ¬ df.length < 21 := not_lt.mpr h
  have hclen : (df.map Prod.fst).length = df.length := List.length_map df Prod.fst
  have hvlen : (df.map Prod.snd).length = df.length := List.length_map df Prod.snd
  have e1 : (rollingMean 5 (df.map Prod.fst)).getD (df.length - 2) 0
      = fastAvgSpec df (df.length - 2) :=
    rollingMean_getD 5 (df.map Prod.fst) _ (by omega)
  have e2 : (rollingMean 20 (df.map Prod.fst)).getD (df.length - 2) 0
      = slowAvgSpec df (df.length - 2) :=
    rollingMean_getD 20 (df.map Prod.fst) _ (by omega)
  have e3 : (rollingMean 5 (df.map Prod.fst)).getD (df.length - 1) 0
      = fastAvgSpec df (df.length - 1) :=
    rollingMean_getD 5 (df.map Prod.fst) _ (by omega)
  have e4 : (rollingMean 20 (df.map Prod.fst)).getD (df.length - 1) 0
      = slowAvgSpec df (df.length - 1) :=
    rollingMean_getD 20 (df.map Prod.fst) _ (by omega)
  have e5 : (rollingMean 20 (df.map Prod.snd)).getD (df.length - 1) 0
      = volAvgSpec df (df.length - 1) :=
    rollingMean_getD 20 (df.map Prod.snd) _ (by omega)
  have hslice : ((df.map Prod.fst).take (df.length - 1)).drop (df.length - 21)
      ≠ [] := by
    apply List.ne_nil_of_length_pos
    simp only [List.length_drop, List.length_take, hclen]
    omega
  have ebrk :
      maxList (((df.map Prod.fst).take (df.length - 1)).drop (df.length - 21))
          < closeAt df (df.length - 1) ↔
        ∀ i < df.length - 1, df.length - 21 ≤ i →
          closeAt df i < closeAt df (df.length - 1) := by
    rw [maxList_lt_iff _ _ hslice,
      slice_forall_lt_iff (df.map Prod.fst) (df.length - 21) (df.length - 1)
        (closeAt df (df.length - 1)) (by omega) (by omega)]
    exact Iff.rfl
  have hgold : (decide ((rollingMean 5 (df.map Prod.fst)).getD (df.length - 2) 0
        < (rollingMean 20 (df.map Prod.fst)).getD (df.length - 2) 0) &&
      decide ((rollingMean 20 (df.map Prod.fst)).getD (df.length - 1) 0
        < (rollingMean 5 (df.map Prod.fst)).getD (df.length - 1) 0))
      = decide (fastAvgSpec df (df.length - 2) < slowAvgSpec df (df.length - 2) ∧
          slowAvgSpec df (df.length - 1) < fastAvgSpec df (df.length - 1)) := by
    rw [e1, e2, e3, e4, Bool.decide_and]
  have hvol : decide ((rollingMean 20 (df.map Prod.snd)).getD (df.length - 1) 0
        * (9 / 5) < (df.map Prod.snd).getD (df.length - 1) 0)
      = decide (volAvgSpec df (df.length - 1) * (9 / 5)
        < volAt df (df.length - 1)) := by
    rw [e5]
    rfl
  have hbrk : decide
      (maxList (((df.map Prod.fst).take (df.length - 1)).drop (df.length - 21))
        < (df.map Prod.fst).getD (df.length - 1) 0)
      = decide (∀ i < df.length - 1, df.length - 21 ≤ i →
          closeAt df i < closeAt df (df.length - 1)) :=
    decide_eq_decide.mpr ebrk
  refine ⟨?_, ?_, by decide⟩
  · show (strategy_technical df).triggered = true ↔ _
    unfold strategy_technical
    rw [if_neg hn]
    simp only [hgold, hvol, hbrk, Bool.and_eq_true, decide_eq_true_eq]
    tauto
  · unfold strategy_technical
    rw [if_neg hn]
    simp only [hgold, hvol, hbrk]

/-- Concrete §8 scenario frame: twenty days drifting down from 199 to 180 on
volume 1000 (so MA5 sits below MA20 at the prior row), then a close of 300 on
volume 2000 (twice the trailing average volume, above every prior close). -/
def demoSeries : List (ℚ × ℚ) :=
  [(199, 1000), (198, 1000), (197, 1000), (196, 1000), (195, 1000),
   (194, 1000), (193, 1000), (192, 1000), (191, 1000), (190, 1000),
   (189, 1000), (188, 1000), (187, 1000), (186, 1000), (185, 1000),
   (184, 1000), (183, 1000), (182, 1000), (181, 1000), (180, 1000),
   (300, 2000)]

/-- Witness for C5 at the §8 scenario: the crossover, volume and breakout
conditions hold on `demoSeries`, so the strategy triggers and renders the
all-true reason string. -/
theorem C5_technical_iff_witness :
    21 ≤ demoSeries.length ∧
    (strategy_technical demoSeries).triggered = true ∧
    (strategy_technical demoSeries).reason = mkReason true true true := by
  obtain ⟨hiff, hreason, _⟩ :=
    C5_technical_iff demoSeries (by norm_num [demoSeries])
  have hg : fastAvgSpec demoSeries (demoSeries.length - 2)
        < slowAvgSpec demoSeries (demoSeries.length - 2) ∧
      slowAvgSpec demoSeries (demoSeries.length - 1)
        < fastAvgSpec demoSeries (demoSeries.length - 1) := by
    constructor <;> norm_num [fastAvgSpec, slowAvgSpec, mean, winAt, demoSeries]
  have hv : volAvgSpec demoSeries (demoSeries.length - 1) * (9 / 5)
      < volAt demoSeries (demoSeries.length - 1) := by
    norm_num [volAvgSpec, volAt, mean, winAt, demoSeries]
  have hb : ∀ i < demoSeries.length - 1, demoSeries.length - 21 ≤ i →
      closeAt demoSeries i < closeAt demoSeries (demoSeries.length - 1) := by
    have hlen : demoSeries.length = 21 := by norm_num [demoSeries]
    rw [hlen]
    intro i hi _
    interval_cases i <;> norm_num [closeAt, demoSeries]
  refine ⟨by norm_num [demoSeries], hiff.mpr ⟨hg, hv, hb⟩, ?_⟩
  rw [hreason, decide_eq_true hg, decide_eq_true hv, decide_eq_true hb]

/-- C10: a frame of exactly 20 rows passes the pipeline's history gate in
`process_stock` (which aborts only below 20), yet `strategy_technical`
rejects it with the insufficient-data reason; the technical strategy can
trigger only with at least 21 rows. -/
theorem C10_history_gate_gap (df : List (ℚ × ℚ)) :
    (df.length = 20 →
      histInsufficient true df.length = false ∧
      (strategy_technical df).triggered = false ∧
      (strategy_technical df).reason = "資料不足") ∧
    ((strategy_technical df).triggered = true → 21 ≤ df.length) := by
  constructor
  · intro h20
    refine ⟨by simp [histInsufficient, h20], ?_, ?_⟩ <;>
      simp [strategy_technical, h20]
  · intro htrig
    by_contra hlt
    push_neg at hlt
    simp [strategy_technical, hlt] at htrig

/-- Witness for C10: twenty identical rows pass the history gate but the
technical strategy reports insufficient data. -/
theorem C10_history_gate_gap_witness :
    histInsufficient true (List.replicate 20 ((100 : ℚ), (1000 : ℚ))).length
        = false ∧
    (strategy_technical (List.replicate 20 ((100 : ℚ), (1000 : ℚ)))).triggered
        = false ∧
    (strategy_technical (List.replicate 20 ((100 : ℚ), (1000 : ℚ)))).reason
        = "資料不足" :=
  (C10_history_gate_gap (List.replicate 20 ((100 : ℚ), (1000 : ℚ)))).1 (by simp)

/-! ## Resilient fetch client (`modules/finmind_client.py`, `get_data`)

Each HTTP attempt either raises (`SSLError` or any other exception) or yields
a response with a status code and a parsed data payload.  Python semantics:
an exception raised inside an `except` clause is NOT caught by a sibling
`except` clause of the same `try`, so failures of the insecure retry (which
lives inside `except requests.exceptions.SSLError:`) propagate to the
caller. -/

/-- Outcome of one HTTP attempt inside `get_data`. -/
inductive FMAttempt where
  /-- `requests` raised `SSLError`. -/
  | raisesSSL : FMAttempt
  /-- Any other exception (connection error, timeout, JSON decode, ...). -/
  | raisesOther : FMAttempt
  /-- A response arrived with this status code and parsed `data` payload. -/
  | resp (status : Nat) (data : List String) : FMAttempt
deriving DecidableEq, Repr

/-- `Response.raise_for_status` raises exactly on 4xx/5xx. -/
def pyRaiseForStatus (status : Nat) : Bool :=
  decide (400 ≤ status) && decide (status < 600)

/-- `get_data` (finmind_client.py lines 64-84) over the outcome of the first
attempt and, when the first raised `SSLError`, of the insecure retry.
`Except.error` marks an exception propagating to the caller. -/
def get_data (first second : FMAttempt) : Except String (List String) :=
  match first with
  | .resp status data =>
      if status = 402 then .ok []
      else if pyRaiseForStatus status then .ok []
      else .ok data
  | .raisesOther => .ok []
  | .raisesSSL =>
      match second with
      | .resp status data =>
          if status = 402 then .ok []
          else if pyRaiseForStatus status then .error "HTTPError"
          else .ok data
      | .raisesSSL => .error "SSLError"
      | .raisesOther => .error "Exception"

/-- C6, behaviour at the failing input: a quota-exhausted 402, a transport
error, a retry-exhausted 500 and even a 402 on the insecure retry are all
mapped to the empty list — but when the first attempt raises `SSLError` and
the insecure retry then sees an HTTP 500, `raise_for_status` raises inside
the `except SSLError` handler and the exception escapes `get_data`,
contradicting its docstring `失敗回 []`. -/
theorem C6_ssl_fallback_raises :
    get_data (FMAttempt.resp 402 ["row"]) (FMAttempt.resp 200 ["x"])
        = Except.ok [] ∧
    get_data FMAttempt.raisesOther (FMAttempt.resp 200 ["x"]) = Except.ok [] ∧
    get_data (FMAttempt.resp 500 ["row"]) (FMAttempt.resp 200 ["x"])
        = Except.ok [] ∧
    get_data FMAttempt.raisesSSL (FMAttempt.resp 402 ["row"]) = Except.ok [] ∧
    get_data (FMAttempt.resp 200 ["row"]) (FMAttempt.resp 200 ["x"])
        = Except.ok ["row"] ∧
    get_data FMAttempt.raisesSSL (FMAttempt.resp 500 ["row"])
        = Except.error "HTTPError" := by
  refine ⟨?_, ?_, ?_, ?_, ?_, ?_⟩ <;> rfl

/-! ## Rate limiter (`modules/finmind_client.py`, `_RateLimiter`)

`wait` runs under a mutex, so concurrent calls serialize into a sequence.
One call is observed as two clock readings `t1` (before the conditional
sleep) and `t2` (written to `_last` after it).  The model assumes a
monotone clock and that `time.sleep(d)` suspends for at least `d`. -/

/-- `1.0 / max(qps, 0.1)` (finmind_client.py line 16). -/
def minInterval (qps : ℚ) : ℚ := 1 / max qps (1 / 10)

/-- Clock readings of one `wait` call. -/
structure WaitObs where
  t1 : ℚ
  t2 : ℚ
deriving DecidableEq, Repr

/-- Sleep requested at line 24-25: `min_interval - dt` when `dt` is short,
nothing otherwise. -/
def sleepNeeded (mi last t1 : ℚ) : ℚ :=
  if t1 - last < mi then mi - (t1 - last) else 0

/-- The observations are consistent with `wait`'s code under a monotone
clock: the second reading is not earlier than the first plus the sleep. -/
def traceValidB (mi : ℚ) : ℚ → List WaitObs → Bool
  | _, [] => true
  | last, o :: rest =>
      decide (o.t1 + sleepNeeded mi last o.t1 ≤ o.t2) &&
        traceValidB mi o.t2 rest

/-- Successive values written to `_last`: the `t2` of each call. -/
def grantTimes : ℚ → List WaitObs → List ℚ
  | _, [] => []
  | _, o :: rest => o.t2 :: grantTimes o.t2 rest

/-- Counterexample to C9: a limiter configured at `QPS = 1/20` has
`min_interval = 1/max(1/20, 0.1) = 10`, so a perfectly valid execution grants
at `t = 1000` and `t = 1010` — only 10 seconds apart, less than
`1/q = 20`. -/
theorem C9_counterexample :
    traceValidB (minInterval (1 / 20)) 0 [⟨1000, 1000⟩, ⟨1000, 1010⟩] = true ∧
    grantTimes 0 [⟨1000, 1000⟩, ⟨1000, 1010⟩] = [1000, 1010] ∧
    ¬ ((1000 : ℚ) + 1 / (1 / 20) ≤ 1010) := by
  refine ⟨?_, ?_, by norm_num⟩
  · norm_num [traceValidB, sleepNeeded, minInterval]
  · norm_num [grantTimes]

/-- C9 as amended: on any valid observation sequence the successive `_last`
values (including the step from the initial `_last`) are spaced by at least
`min_interval = 1/max(q, 0.1)` — which equals `1/q` exactly when
`q ≥ 0.1`. -/
theorem C9_grant_spacing (qps last : ℚ) (obs : List WaitObs)
    (h : traceValidB (minInterval qps) last obs = true) :
    List.Chain (fun a b => a + minInterval qps ≤ b) last
      (grantTimes last obs) ∧
    (1 / 10 ≤ qps → minInterval qps = 1 / qps) := by
  constructor
  · induction obs generalizing last with
    | nil => exact List.Chain.nil
    | cons o rest ih =>
        simp only [traceValidB, Bool.and_eq_true, decide_eq_true_eq] at h
        obtain ⟨h1, h2⟩ := h
        refine List.Chain.cons ?_ (ih o.t2 h2)
        by_cases hs : o.t1 - last < minInterval qps
        · simp only [sleepNeeded, hs, if_true] at h1
          linarith
        · simp only [sleepNeeded, hs, if_false] at h1
          push_neg at hs
          linarith
  · intro hq
    unfold minInterval
    rw [max_eq_left hq]

/-- Witness for C9 as amended: a valid two-call trace at `QPS = 4` has grants
chained at least `1/4` apart. -/
theorem C9_grant_spacing_witness :
    List.Chain (fun a b => a + minInterval 4 ≤ b) 0
      (grantTimes 0 [⟨0, 1 / 4⟩, ⟨1 / 4, 1 / 2⟩]) ∧
    (1 / 10 ≤ (4 : ℚ) → minInterval 4 = 1 / 4) :=
  C9_grant_spacing 4 0 [⟨0, 1 / 4⟩, ⟨1 / 4, 1 / 2⟩]
    (by norm_num [traceValidB, sleepNeeded, minInterval])

end StockBot
